import Mathlib

/-!
Verification development for the branching-conversation chat client
(`client.py`).  The client logic (command parsing, branch management,
fetch workers, persistence loading) is shallowly embedded below; the
conversation-tree container lives in `models.py`, which is not part of
the sources, so it is modelled from the specification where needed.
-/

set_option autoImplicit false

/-- A `{role, content}` dict as exchanged with the completion provider. -/
structure RCMsg where
  role : String
  content : String
deriving DecidableEq, Repr

/-- The Python exception classes that the embedded code can raise. -/
inductive PyErr where
  | indexError
  | keyError
  | typeError
  | valueError
  | attributeError
  | recursionError
  | apiError
deriving DecidableEq, Repr

/-- Rendering of `str(e)` for the exceptions above.  The exact message text
comes from the exception objects (library / models.py) and no theorem below
depends on it. -/
def pyErrStr : PyErr → String
  | .indexError => "list index out of range"
  | .keyError => "KeyError"
  | .typeError => "TypeError"
  | .valueError => "invalid literal for int() with base 10"
  | .attributeError => "AttributeError"
  | .recursionError => "maximum recursion depth exceeded"
  | .apiError => "API error"

/-- Python list indexing `xs[i]` for `int` indices, including the
negative-index convention. -/
def pyIndex {α : Type} (xs : List α) (i : Int) : Except PyErr α :=
  if 0 ≤ i then
    match xs.get? i.toNat with
    | some a => .ok a
    | none => .error .indexError
  else if i.natAbs ≤ xs.length then
    match xs.get? (xs.length - i.natAbs) with
    | some a => .ok a
    | none => .error .indexError
  else
    .error .indexError

/-- Python slicing `xs[:n]` for an `int` bound `n` (negative bounds count
from the end). -/
def pySliceTo {α : Type} (xs : List α) (n : Int) : List α :=
  if 0 ≤ n then xs.take n.toNat else xs.take (xs.length - n.natAbs)

def isPySpace (c : Char) : Bool :=
  c.isWhitespace

/-- Work loop of Python `str.split`: drop a whitespace run, cut a token,
repeat; with a budget it mirrors the `maxsplit` behaviour where the final
element keeps the rest of the string verbatim (its leading whitespace
stripped).  The fuel argument only bounds the recursion and is always
given as more than the length of the input. -/
def pySplitGo : Nat → List Char → Option Nat → List String
  | 0, _, _ => []
  | fuel + 1, cs, budget =>
    let cs2 := cs.dropWhile isPySpace
    match cs2 with
    | [] => []
    | _ :: _ =>
      match budget with
      | some 0 => [String.mk cs2]
      | _ =>
        let tok := cs2.takeWhile (fun c => !(isPySpace c))
        let rest := cs2.dropWhile (fun c => !(isPySpace c))
        String.mk tok :: pySplitGo fuel rest (budget.map (· - 1))

/-- Python `s.split()` (split on whitespace runs, no empty fields). -/
def pySplit (s : String) : List String :=
  pySplitGo (s.data.length + 1) s.data none

/-- Python `s.split(maxsplit=m)`. -/
def pySplitMaxsplit (s : String) (m : Nat) : List String :=
  pySplitGo (s.data.length + 1) s.data (some m)

/-- Python `s.startswith(pre)`, expressed over the character lists. -/
def listStarts : List Char → List Char → Bool
  | _, [] => true
  | [], _ :: _ => false
  | a :: as, b :: bs => a = b && listStarts as bs

def pyStartsWith (s pre : String) : Bool :=
  listStarts s.data pre.data

def digitsToNat (ds : List Char) : Nat :=
  ds.foldl (fun acc c => acc * 10 + (c.toNat - '0'.toNat)) 0

/-- Python `int(s)`: surrounding whitespace is stripped, an optional sign
is allowed, and the remainder must be a nonempty digit string, otherwise
`ValueError`.  (Underscore digit grouping, an obscure corner of `int()`,
is not modelled; no command input in the claims uses it.) -/
def pyInt (s : String) : Except PyErr Int :=
  let cs := ((s.data.dropWhile isPySpace).reverse.dropWhile isPySpace).reverse
  match cs with
  | [] => .error .valueError
  | c :: rest =>
    let sgn : Int := if c = '-' then -1 else 1
    let ds := if c = '-' ∨ c = '+' then rest else c :: rest
    if ds ≠ [] ∧ ds.all Char.isDigit then
      .ok (sgn * (digitsToNat ds : Int))
    else
      .error .valueError

/-!  ## The conversation tree

`ChatMessage` and `ConversationTree` live in `models.py`, which is not
among the sources; they are modelled from the specification (§3, §4.2):
an immutable role/content pair, an ordered list of children, and an
optional remembered selected child per node.  -/

/-- Modelled from the spec: the Message node of §3 (`models.ChatMessage`
is not in src/).  `selectedChild` is the node's remembered active child. -/
inductive ChatMessage where
  | mk (role : String) (content : String) (children : List ChatMessage)
      (selectedChild : Option Nat)
deriving Repr

def ChatMessage.role : ChatMessage → String
  | .mk r _ _ _ => r

def ChatMessage.content : ChatMessage → String
  | .mk _ c _ _ => c

def ChatMessage.children : ChatMessage → List ChatMessage
  | .mk _ _ ch _ => ch

def ChatMessage.selectedChild : ChatMessage → Option Nat
  | .mk _ _ _ s => s

/-- Modelled from the spec: the "current conversation" walk of §3 — follow
each node's `selectedChild` from the root until a node without a selected
child (an absent or invalid index ends the walk, cf. invariant I1). -/
def currentPath (m : ChatMessage) : List ChatMessage :=
  match m with
  | .mk r c ch sel =>
    match sel with
    | none => [.mk r c ch none]
    | some i =>
      match h : ch.get? i with
      | none => [.mk r c ch (some i)]
      | some child =>
        have : sizeOf child < sizeOf ch := List.sizeOf_lt_of_mem (List.get?_mem h)
        .mk r c ch (some i) :: currentPath child
termination_by sizeOf m
decreasing_by simp_wf; omega

/-- Modelled from the spec: §4.2 `add_message` with `after_index` given —
the new node becomes an additional child of the node at position `k` of
the current path, appended at the end of `children`, and that parent's
`selectedChild` is updated to the new index. -/
def addAt (m : ChatMessage) (k : Nat) (nm : ChatMessage) : ChatMessage :=
  match m, k with
  | .mk r c ch _, 0 => .mk r c (ch ++ [nm]) (some ch.length)
  | .mk r c ch sel, k' + 1 =>
    match sel with
    | none => .mk r c ch none
    | some i =>
      match h : ch.get? i with
      | none => .mk r c ch (some i)
      | some child =>
        have : sizeOf child < sizeOf ch := List.sizeOf_lt_of_mem (List.get?_mem h)
        .mk r c (ch.set i (addAt child k' nm)) (some i)
termination_by sizeOf m
decreasing_by simp_wf; omega

/-- Modelled from the spec: §4.2 `add_message` without `after_index` — the
new node becomes a child of the current leaf and is selected. -/
def appendAtLeaf (m : ChatMessage) (nm : ChatMessage) : ChatMessage :=
  match m with
  | .mk r c ch sel =>
    match sel with
    | none => .mk r c (ch ++ [nm]) (some ch.length)
    | some i =>
      match h : ch.get? i with
      | none => .mk r c (ch ++ [nm]) (some ch.length)
      | some child =>
        have : sizeOf child < sizeOf ch := List.sizeOf_lt_of_mem (List.get?_mem h)
        .mk r c (ch.set i (appendAtLeaf child nm)) (some i)
termination_by sizeOf m
decreasing_by simp_wf; omega

/-- Modelled from the spec: §4.2 `change_branch` — set the `selectedChild`
of the node at position `k` of the current path to `b`, failing (with the
tree untouched) when `b` is not a valid child index or the walk cannot
reach position `k`. -/
def setSelectedAt (m : ChatMessage) (k : Nat) (b : Nat) : Option ChatMessage :=
  match m, k with
  | .mk r c ch _, 0 =>
    if b < ch.length then some (.mk r c ch (some b)) else none
  | .mk r c ch sel, k' + 1 =>
    match sel with
    | none => none
    | some i =>
      match h : ch.get? i with
      | none => none
      | some child =>
        have : sizeOf child < sizeOf ch := List.sizeOf_lt_of_mem (List.get?_mem h)
        (setSelectedAt child k' b).map (fun child2 => .mk r c (ch.set i child2) (some i))
termination_by sizeOf m
decreasing_by simp_wf; omega

/-- Modelled from the spec: the Conversation Tree of §3 (`models.py` is not
in src/); the root is absent until the first message is added. -/
structure ConversationTree where
  root : Option ChatMessage
deriving Repr

def ConversationTree.get_current_conversation (t : ConversationTree) : List ChatMessage :=
  match t.root with
  | none => []
  | some r => currentPath r

def toRC (m : ChatMessage) : RCMsg :=
  ⟨m.role, m.content⟩

def ConversationTree.get_current_conversation_as_dicts (t : ConversationTree) : List RCMsg :=
  t.get_current_conversation.map toRC

/-- Modelled from the spec: §4.2 `add_message(role, content, after_index)`.
Without `after_index` the message extends the current leaf; with it the
message becomes a new sibling branch, and an out-of-range `after_index`
raises an `IndexError`-class condition. -/
def ConversationTree.add_message (t : ConversationTree) (role content : String)
    (after_index : Option Int) : Except PyErr ConversationTree :=
  let nm : ChatMessage := .mk role content [] none
  match after_index with
  | none =>
    match t.root with
    | none => .ok ⟨some nm⟩
    | some r => .ok ⟨some (appendAtLeaf r nm)⟩
  | some k =>
    if 0 ≤ k ∧ k < (t.get_current_conversation.length : Int) then
      match t.root with
      | none => .error .indexError
      | some r => .ok ⟨some (addAt r k.toNat nm)⟩
    else
      .error .indexError

/-- Modelled from the spec: §4.2 `get_branch_width`. -/
def ConversationTree.get_branch_width (t : ConversationTree) (i : Nat) : Except PyErr Nat :=
  match t.get_current_conversation.get? i with
  | some m => .ok m.children.length
  | none => .error .indexError

/-- Modelled from the spec: §4.2 `change_branch(index, branch_index)`; out
of bounds arguments raise a domain error and leave the tree unmodified. -/
def ConversationTree.change_branch (t : ConversationTree) (i b : Int) :
    Except PyErr ConversationTree :=
  if 0 ≤ i ∧ 0 ≤ b ∧ i < (t.get_current_conversation.length : Int) then
    match t.root with
    | none => .error .indexError
    | some r =>
      match setSelectedAt r i.toNat b.toNat with
      | some r2 => .ok ⟨some r2⟩
      | none => .error .indexError
  else
    .error .indexError

/-!  ## The session controller (`ChatClient` in client.py)

The wx widgets are external collaborators; every call the client code
makes into them is recorded as an `Effect`, and the spawning of a worker
thread is likewise an effect whose execution is modelled separately by
`_get_next_completion_thread` / `_get_title_for_conversation_thread`. -/

/-- Which `post_completion` closure a spawned completion fetch carries:
`new_child` and the user branch of `new_branch` append via
`add_to_conversation`; the assistant branch of `new_branch` inserts via
`add_to_branch` at the remembered level. -/
inductive CallbackKind where
  | appendToConversation
  | branchAt (lvl : Int)
deriving DecidableEq, Repr

/-- Calls made into the surrounding UI / thread library, in program order. -/
inductive Effect where
  | appendTranscript (s : String)
  | refreshDetail
  | refreshList
  | disableControls
  | enableControls
  | spawnCompletionFetch (truncate_before : Option Int) (k : CallbackKind)
  | spawnTitleFetch (idx : Nat)
  | logStderr (s : String)
deriving DecidableEq, Repr

/-- The mutable fields of `ChatClient` that the embedded logic touches. -/
structure ClientState where
  conversations : List (String × ConversationTree)
  current_conversation_idx : Option Int
deriving Repr

/-- The list position named by `current_conversation_idx` (Python indexing,
so negative values count from the end). -/
def resolveConvIdx (st : ClientState) : Option Nat :=
  match st.current_conversation_idx with
  | none => none
  | some i =>
    if 0 ≤ i ∧ i.toNat < st.conversations.length then some i.toNat
    else if i < 0 ∧ i.natAbs ≤ st.conversations.length then
      some (st.conversations.length - i.natAbs)
    else none

/-- Alias view `self.current_conversation`: in the source an alias of
`self.conversations[self.current_conversation_idx][1]` (the two are always
assigned together), derived here from the index so the aliasing needs no
mutable heap. -/
def currentTree (st : ClientState) : Option ConversationTree :=
  (resolveConvIdx st).bind fun i => (st.conversations.get? i).map Prod.snd

/-- Mutation through the `current_conversation` alias: the tree stored at
the current index is replaced, its title kept. -/
def setCurrentTree (st : ClientState) (t : ConversationTree) : ClientState :=
  match resolveConvIdx st with
  | some i =>
    match st.conversations.get? i with
    | some (ttl, _) => { st with conversations := st.conversations.set i (ttl, t) }
    | none => st
  | none => st

/-- Assignment `self.conversations[i][0] = ttl` (no-op when `i` is out of range; the
callers below check the range first). -/
def setTitleAt (convs : List (String × ConversationTree)) (i : Nat) (ttl : String) :
    List (String × ConversationTree) :=
  match convs.get? i with
  | some (_, tr) => convs.set i (ttl, tr)
  | none => convs

/-- The outcome of running one client method: the state afterwards, the
external calls it made in order, and its return value or the uncaught
exception it raised.  Effects already performed persist when an exception
is raised later, exactly as in Python. -/
structure Outcome (α : Type) where
  state : ClientState
  effects : List Effect
  result : Except PyErr α

def Outcome.toUnit {α : Type} (o : Outcome α) : Outcome Unit :=
  ⟨o.state, o.effects, o.result.map fun _ => ()⟩

def ChatClient.start_thinking_state : List Effect :=
  [.appendTranscript "\nChatGPT is thinking...", .disableControls]

def ChatClient.stop_thinking_state : List Effect :=
  [.enableControls]

def ChatClient.create_conversation (st : ClientState) : Outcome Unit :=
  match ConversationTree.add_message ⟨none⟩ "system" "You are a helpful assistant." none with
  | .ok t1 =>
    let convs := st.conversations ++ [("New conversation", t1)]
    ⟨⟨convs, some ((convs.length : Int) - 1)⟩, [.refreshList, .refreshDetail], .ok ()⟩
  | .error e => ⟨st, [], .error e⟩

def ChatClient.get_title_for_conversation (idx : Nat) : List Effect :=
  [.spawnTitleFetch idx]

def ChatClient.add_to_conversation (st : ClientState) (role content : String) : Outcome Unit :=
  match currentTree st, resolveConvIdx st with
  | some t, some idx =>
    match t.add_message role content none with
    | .error e => ⟨st, [], .error e⟩
    | .ok t2 =>
      let st2 := setCurrentTree st t2
      match st2.conversations.get? idx with
      | none => ⟨st2, [.refreshDetail], .error .indexError⟩
      | some (ttl, _) =>
        if ttl = "New conversation" ∧ role = "assistant" then
          let st3 := { st2 with
            conversations := setTitleAt st2.conversations idx "Retrieving title..." }
          ⟨st3, [.refreshDetail, .refreshList] ++ ChatClient.get_title_for_conversation idx,
            .ok ()⟩
        else
          ⟨st2, [.refreshDetail], .ok ()⟩
  | _, _ => ⟨st, [], .error .attributeError⟩

def ChatClient.add_to_branch (st : ClientState) (sibling_level : Int)
    (role content : String) : Outcome Bool :=
  match currentTree st with
  | none => ⟨st, [], .error .attributeError⟩
  | some t =>
    let L := t.get_current_conversation.length
    if 1 ≤ sibling_level ∧ sibling_level < (L : Int) then
      match t.add_message role content (some (sibling_level - 1)) with
      | .ok t2 => ⟨setCurrentTree st t2, [.refreshDetail], .ok true⟩
      | .error e => ⟨st, [], .error e⟩
    else
      ⟨st, [.appendTranscript s!"\n\nrequested sibling level outside range (1 - {L})"],
        .ok false⟩

def ChatClient.switch_branch (st : ClientState) (msg_idx branch_idx : Int) : Outcome Bool :=
  match currentTree st with
  | none => ⟨st, [], .error .attributeError⟩
  | some t =>
    match t.change_branch (msg_idx - 1) (branch_idx - 1) with
    | .ok t2 => ⟨setCurrentTree st t2, [.refreshDetail], .ok true⟩
    | .error e => ⟨st, [.appendTranscript ("\n\n" ++ pyErrStr e)], .ok false⟩

def ChatClient.role_at_level (st : ClientState) (msg_idx : Int) : Except PyErr String :=
  match currentTree st with
  | none => .error .attributeError
  | some t =>
    let curr := t.get_current_conversation
    if msg_idx ≥ 0 ∧ msg_idx ≤ (curr.length : Int) then
      (pyIndex curr msg_idx).map ChatMessage.role
    else
      .ok "?"

def ChatClient.new_branch (st : ClientState) (sibling_level : Int)
    (content : Option String) : Outcome Unit :=
  match currentTree st with
  | none => ⟨st, [], .error .attributeError⟩
  | some t =>
    let L := t.get_current_conversation.length
    if 1 ≤ sibling_level ∧ sibling_level < (L : Int) then
      match ChatClient.role_at_level st sibling_level with
      | .error e => ⟨st, [], .error e⟩
      | .ok r =>
        if r = "assistant" then
          ⟨st, ChatClient.start_thinking_state ++
              [.spawnCompletionFetch (some sibling_level) (.branchAt sibling_level)], .ok ()⟩
        else
          match content with
          | some c =>
            let o := ChatClient.add_to_branch st sibling_level "user" c
            match o.result with
            | .ok true =>
              ⟨o.state, o.effects ++ ChatClient.start_thinking_state ++
                  [.spawnCompletionFetch none .appendToConversation], .ok ()⟩
            | .ok false => ⟨o.state, o.effects, .ok ()⟩
            | .error e => ⟨o.state, o.effects, .error e⟩
          | none =>
            -- In Python this call would store a None content in the tree; it
            -- is unreachable: `parse_command` passes no text only after it
            -- checked that the role at this level is "assistant".
            ⟨st, [], .error .typeError⟩
    else
      ⟨st, [.appendTranscript
          s!"\n\nrequested sibling level for new-branch outside range (1 - {L})"], .ok ()⟩

def ChatClient.new_child (st : ClientState) (input_string : String) : Outcome Unit :=
  let o := ChatClient.add_to_conversation st "user" input_string
  match o.result with
  | .error e => ⟨o.state, o.effects, .error e⟩
  | .ok _ =>
    ⟨o.state, o.effects ++ ChatClient.start_thinking_state ++
        [.spawnCompletionFetch none .appendToConversation], .ok ()⟩

def ChatClient.unrecognized_command : List Effect :=
  [.appendTranscript "\n\nunrecognized / command, try one of these instead:\n/sw a b -- switches level a message to alternative b\n/nb n str -- creates a new response at level n (str ignored when replacing ChatGPT resps)"]

def ChatClient.parse_command (st : ClientState) (input : String) : Outcome Unit :=
  if pyStartsWith input "/sw" then
    let parts := pySplit input
    if parts.length = 3 then
      match pyInt (parts.getD 1 "") with
      | .error e => ⟨st, [], .error e⟩
      | .ok a =>
        match pyInt (parts.getD 2 "") with
        | .error e => ⟨st, [], .error e⟩
        | .ok b => (ChatClient.switch_branch st a b).toUnit
    else
      ⟨st, ChatClient.unrecognized_command, .ok ()⟩
  else if pyStartsWith input "/nb" then
    let parts := pySplitMaxsplit input 2
    if parts.length = 3 then
      match pyInt (parts.getD 1 "") with
      | .error e => ⟨st, [], .error e⟩
      | .ok a => ChatClient.new_branch st a (some (parts.getD 2 ""))
    else if parts.length = 2 then
      match pyInt (parts.getD 1 "") with
      | .error e => ⟨st, [], .error e⟩
      | .ok a =>
        match ChatClient.role_at_level st a with
        | .error e => ⟨st, [], .error e⟩
        | .ok r =>
          if r = "assistant" then
            ChatClient.new_branch st a none
          else
            ⟨st, [.appendTranscript
                s!"\n\nnew-branch for level {a} also requires a prompt (e.g. /nb {a} Hello, world!)"],
              .ok ()⟩
    else
      ⟨st, ChatClient.unrecognized_command, .ok ()⟩
  else if pyStartsWith input "/" then
    ⟨st, ChatClient.unrecognized_command, .ok ()⟩
  else
    ChatClient.new_child st input

/-!  ## The fetch workers -/

/-- What a worker thread does, in order: read the tree, call the provider,
invoke its `and_then` callback. -/
inductive WorkerOp where
  | readCurrentConversation
  | callProvider (messages : List RCMsg)
  | invokeCallback (resp : RCMsg)
deriving DecidableEq, Repr

/-- One worker-thread execution: its operations in order, and the uncaught
exception that killed the thread, if any.  (A Python thread that raises
dies silently after printing a traceback; nothing else happens.) -/
structure WorkerRun where
  ops : List WorkerOp
  raised : Option PyErr
deriving DecidableEq, Repr

/-- Worker `client._get_next_completion_thread`: with an API key configured it
reads the current conversation from the tree it was handed, truncates it
when `truncate_before` is given, calls the provider and passes the reply
to `and_then`; if the provider raises, the exception propagates and the
thread dies with no callback.  Without a key a stub reply tagged with a
random number is passed to `and_then` and the tree is never read. -/
def _get_next_completion_thread (openai_api_key : Bool) (conv : ConversationTree)
    (truncate_before : Option Int) (provider : List RCMsg → Except PyErr RCMsg)
    (randTag : Nat) : WorkerRun :=
  if openai_api_key then
    let curr_conv := conv.get_current_conversation_as_dicts
    let curr_conv := match truncate_before with
      | some n => pySliceTo curr_conv n
      | none => curr_conv
    match provider curr_conv with
    | .ok resp => ⟨[.readCurrentConversation, .callProvider curr_conv, .invokeCallback resp], none⟩
    | .error e => ⟨[.readCurrentConversation, .callProvider curr_conv], some e⟩
  else
    ⟨[.invokeCallback ⟨"assistant", s!"As an AI language model, simulated response {randTag}"⟩],
      none⟩

def titleSystemPrompt : String :=
  "Provide a short title, less than 5 words whenever possible, summarizing a user-submitted conversation between a user and an AI model, provided in JSON form. Avoid using the user\x27s query verbatim in your title. Respond to user queries with the title you are providing, without other prefixes or suffixes."

/-- Python `str` of one `{role, content}` dict.  (CPython picks different
quoting when the content itself contains quotes; no theorem depends on
the rendering.) -/
def pyReprDict (m : RCMsg) : String :=
  "\x7b\x27role\x27: \x27" ++ m.role ++ "\x27, \x27content\x27: \x27" ++ m.content ++ "\x27\x7d"

def pyStrOfDicts (msgs : List RCMsg) : String :=
  "[" ++ String.intercalate ", " (msgs.map pyReprDict) ++ "]"

/-- Worker `client._get_title_for_conversation_thread`: with an API key it reads
the current conversation and, only when that conversation has at least 3
messages, asks the provider for a title and passes the reply to
`and_then`; in every other case it returns without invoking the callback. -/
def _get_title_for_conversation_thread (openai_api_key : Bool) (conv : ConversationTree)
    (provider : List RCMsg → Except PyErr RCMsg) : WorkerRun :=
  if openai_api_key then
    let curr_conv := conv.get_current_conversation_as_dicts
    if curr_conv.length ≥ 3 then
      let msgs : List RCMsg := [⟨"system", titleSystemPrompt⟩, ⟨"user", pyStrOfDicts curr_conv⟩]
      match provider msgs with
      | .ok resp => ⟨[.readCurrentConversation, .callProvider msgs, .invokeCallback resp], none⟩
      | .error e => ⟨[.readCurrentConversation, .callProvider msgs], some e⟩
    else
      ⟨[.readCurrentConversation], none⟩
  else
    ⟨[], none⟩

def WorkerRun.callbacks (run : WorkerRun) : List RCMsg :=
  run.ops.filterMap fun op =>
    match op with
    | .invokeCallback r => some r
    | _ => none

/-- The `post_completion` closures of `new_child` / `new_branch`, as run on
the mutator context via `wx.CallAfter`: deliver the reply into the tree,
then re-enable the controls. -/
def ChatClient.resolve_callback (st : ClientState) (k : CallbackKind) (resp : RCMsg) :
    Outcome Unit :=
  match k with
  | .appendToConversation =>
    let o := ChatClient.add_to_conversation st resp.role resp.content
    ⟨o.state, o.effects ++ ChatClient.stop_thinking_state, o.result⟩
  | .branchAt lvl =>
    let o := ChatClient.add_to_branch st lvl resp.role resp.content
    ⟨o.state, o.effects ++ ChatClient.stop_thinking_state, o.result.map fun _ => ()⟩

/-- Everything that happens on the mutator context after a completion
worker finishes: each callback invocation the worker made is delivered
through `wx.CallAfter` and handled by `resolve_callback`.  A worker that
died without invoking its callback delivers nothing. -/
def ChatClient.resolve_fetch (st : ClientState) (k : CallbackKind) (run : WorkerRun) :
    Outcome Unit :=
  run.callbacks.foldl
    (fun o r =>
      let o2 := ChatClient.resolve_callback o.state k r
      ⟨o2.state, o.effects ++ o2.effects, o2.result⟩)
    ⟨st, [], .ok ()⟩

/-- The `post_completion` closure of `get_title_for_conversation`: store
the model-supplied title and refresh the conversation list. -/
def ChatClient.title_post_completion (st : ClientState) (idx : Nat) (resp : RCMsg) :
    Outcome Unit :=
  match st.conversations.get? idx with
  | none => ⟨st, [], .error .indexError⟩
  | some _ =>
    ⟨{ st with conversations := setTitleAt st.conversations idx resp.content },
      [.refreshList], .ok ()⟩

def ChatClient.resolve_title_fetch (st : ClientState) (idx : Nat) (run : WorkerRun) :
    Outcome Unit :=
  run.callbacks.foldl
    (fun o r =>
      let o2 := ChatClient.title_post_completion o.state idx r
      ⟨o2.state, o.effects ++ o2.effects, o2.result⟩)
    ⟨st, [], .ok ()⟩

/-!  ## Persistence (`ChatClient.load`)

`json.load` is the external JSON library; its successful result is
modelled by the `Json` inductive below (the state files written by `save`
contain only objects, arrays, strings, integers and null, so JSON floats
are not modelled). -/

inductive Json where
  | null
  | bool (b : Bool)
  | num (n : Int)
  | str (s : String)
  | arr (elems : List Json)
  | obj (fields : List (String × Json))
deriving Repr

mutual

/-- An executable over-approximation of the nesting depth of a JSON value,
used only to instantiate the fuel of `unserializeNode`. -/
def jsonFuel : Json → Nat
  | .arr xs => 1 + jsonFuelList xs
  | .obj fields => 1 + jsonFuelFields fields
  | _ => 1

def jsonFuelList : List Json → Nat
  | [] => 0
  | x :: xs => jsonFuel x + jsonFuelList xs

def jsonFuelFields : List (String × Json) → Nat
  | [] => 0
  | (_, v) :: xs => jsonFuel v + jsonFuelFields xs

end

/-- Python `dat[k]` for a string key: a dict either has the key or raises
`KeyError`; any non-dict raises `TypeError`. -/
def jsonGetKey (j : Json) (k : String) : Except PyErr Json :=
  match j with
  | .obj fields =>
    match fields.lookup k with
    | some v => .ok v
    | none => .error .keyError
  | _ => .error .typeError

/-- Python iteration (`for a in x`): lists yield their elements, strings
their characters, dicts their keys; anything else raises `TypeError`. -/
def jsonIter (j : Json) : Except PyErr (List Json) :=
  match j with
  | .arr xs => .ok xs
  | .str s => .ok (s.data.map fun c => .str (String.mk [c]))
  | .obj fields => .ok (fields.map fun kv => .str kv.1)
  | _ => .error .typeError

/-- Python `a[i]` for an `int` index: lists and strings index, a dict
raises `KeyError` for an absent integer key, anything else `TypeError`. -/
def jsonSubscript (j : Json) (i : Int) : Except PyErr Json :=
  match j with
  | .arr xs => pyIndex xs i
  | .str s => (pyIndex s.data i).map fun c => .str (String.mk [c])
  | .obj _ => .error .keyError
  | _ => .error .typeError

def jsonAsStr (j : Json) : Except PyErr String :=
  match j with
  | .str s => .ok s
  | _ => .error .typeError

/-- Modelled from the spec: one node of the §6 persisted format
`\x7b role, content, children: [...], selected_child: integer|absent \x7d`
(`ConversationTree.unserialize` lives in models.py, not in src/).  The
fuel argument only bounds the recursion and is always instantiated so
that it cannot run out on the blob being decoded. -/
def unserializeNode : Nat → Json → Except PyErr ChatMessage
  | 0, _ => .error .recursionError
  | fuel + 1, j => do
    let roleJ ← jsonGetKey j "role"
    let role ← jsonAsStr roleJ
    let contentJ ← jsonGetKey j "content"
    let content ← jsonAsStr contentJ
    let childrenJ ← jsonGetKey j "children"
    let childrenL ← match childrenJ with
      | .arr xs => Except.ok xs
      | _ => Except.error PyErr.typeError
    let children ← childrenL.mapM (unserializeNode fuel)
    let sel ← match j with
      | .obj fields =>
        match fields.lookup "selected_child" with
        | none => Except.ok (none : Option Nat)
        | some (.num n) =>
          if 0 ≤ n then Except.ok (some n.toNat) else Except.error PyErr.typeError
        | some _ => Except.error PyErr.typeError
      | _ => Except.error PyErr.typeError
    pure (.mk role content children sel)

/-- Modelled from the spec: §4.2 `deserialize` / §6 `serialized_tree`. -/
def ConversationTree.unserialize (blob : Json) : Except PyErr ConversationTree :=
  (unserializeNode (jsonFuel blob) blob).map fun r => ⟨some r⟩

/-- One `[title, serialized_tree]` pair of the persisted state.  (A
non-string title would, in CPython, be stored and crash moments later
inside the same `load` call when the list widget renders it; the model
raises the `TypeError` at conversion instead — either way `load` raises.) -/
def loadConvPair (a : Json) : Except PyErr (String × ConversationTree) := do
  let titleJ ← jsonSubscript a 0
  let title ← jsonAsStr titleJ
  let blob ← jsonSubscript a 1
  let tree ← ConversationTree.unserialize blob
  pure (title, tree)

/-- What `open` + `json.load` produced for the state file. -/
inductive StateFile where
  | missing
  | unparsable
  | parsed (dat : Json)

/-- Loader `ChatClient.load`: a missing file (`OSError`) is silently ignored;
content that fails JSON decoding is logged to stderr and ignored; any
other exception raised while interpreting the decoded value is not
caught and propagates out of `load`.  Assignments already made keep
their effect when a later step raises, as in Python. -/
def ChatClient.load (st : ClientState) (file : StateFile) : Outcome Unit :=
  match file with
  | .missing => ⟨st, [], .ok ()⟩
  | .unparsable => ⟨st, [.logStderr "JSONDecodeError"], .ok ()⟩
  | .parsed dat =>
    match jsonGetKey dat "conversations" with
    | .error e => ⟨st, [], .error e⟩
    | .ok convsJ =>
      match jsonIter convsJ with
      | .error e => ⟨st, [], .error e⟩
      | .ok items =>
        match items.mapM loadConvPair with
        | .error e => ⟨st, [], .error e⟩
        | .ok convs =>
          let st1 := { st with conversations := convs }
          match jsonGetKey dat "current_conv_idx" with
          | .error e => ⟨st1, [], .error e⟩
          | .ok idxJ =>
            match idxJ with
            | .num n =>
              let st2 := { st1 with current_conversation_idx := some n }
              match pyIndex convs n with
              | .ok _ => ⟨st2, [.refreshList, .refreshDetail], .ok ()⟩
              | .error e => ⟨st2, [], .error e⟩
            | .null =>
              -- Python stores None and then raises TypeError using it as a
              -- list index.
              ⟨{ st1 with current_conversation_idx := none }, [], .error .typeError⟩
            | _ =>
              -- Any other stored index value also raises TypeError when used
              -- as a list index; the garbage value itself is not
              -- representable in the typed state.
              ⟨st1, [], .error .typeError⟩

/-!  ## Structural lemmas about the current-path walk -/

theorem currentPath_none (r c : String) (ch : List ChatMessage) :
    currentPath (.mk r c ch none) = [.mk r c ch none] := by
  rw [currentPath]

theorem currentPath_stop (r c : String) (ch : List ChatMessage) (i : Nat)
    (h : ch.get? i = none) :
    currentPath (.mk r c ch (some i)) = [.mk r c ch (some i)] := by
  rw [currentPath]
  split
  · rfl
  next child heq => rw [h] at heq; cases heq

theorem currentPath_step (r c : String) (ch : List ChatMessage) (i : Nat)
    (child : ChatMessage) (h : ch.get? i = some child) :
    currentPath (.mk r c ch (some i)) = .mk r c ch (some i) :: currentPath child := by
  rw [currentPath]
  split
  next heq => rw [h] at heq; cases heq
  next child2 heq => rw [h] at heq; cases heq; rfl

theorem currentPath_sel_none (m : ChatMessage) (h : m.selectedChild = none) :
    currentPath m = [m] := by
  obtain ⟨r, c, ch, sel⟩ := m
  cases sel with
  | none => exact currentPath_none r c ch
  | some i => cases h

theorem currentPath_cons (m : ChatMessage) : ∃ tl, currentPath m = m :: tl := by
  obtain ⟨r, c, ch, sel⟩ := m
  cases sel with
  | none => exact ⟨[], currentPath_none r c ch⟩
  | some i =>
    cases hg : ch.get? i with
    | none => exact ⟨[], currentPath_stop r c ch i hg⟩
    | some child => exact ⟨currentPath child, currentPath_step r c ch i child hg⟩

theorem addAt_zero (r c : String) (ch : List ChatMessage) (sel : Option Nat)
    (nm : ChatMessage) :
    addAt (.mk r c ch sel) 0 nm = .mk r c (ch ++ [nm]) (some ch.length) := by
  rw [addAt]

theorem addAt_succ_step (r c : String) (ch : List ChatMessage) (i : Nat)
    (child : ChatMessage) (k : Nat) (nm : ChatMessage) (h : ch.get? i = some child) :
    addAt (.mk r c ch (some i)) (k + 1) nm
      = .mk r c (ch.set i (addAt child k nm)) (some i) := by
  rw [addAt]
  split
  next heq => rw [h] at heq; cases heq
  next child2 heq => rw [h] at heq; cases heq; rfl

/-- Creating a sibling branch at position `k` of the current path keeps
the first `k + 1` path entries (as role/content pairs) and makes the new
node the new end of the path. -/
theorem currentPath_addAt (nm : ChatMessage) (hnm : nm.selectedChild = none) :
    ∀ (k : Nat) (m : ChatMessage), k < (currentPath m).length →
    (currentPath (addAt m k nm)).map toRC
      = ((currentPath m).take (k + 1)).map toRC ++ [toRC nm] := by
  intro k
  induction k with
  | zero =>
    intro m hk
    obtain ⟨r, c, ch, sel⟩ := m
    rw [addAt_zero]
    have hget : (ch ++ [nm]).get? ch.length = some nm := List.get?_concat_length ch nm
    rw [currentPath_step _ _ _ _ _ hget, currentPath_sel_none nm hnm]
    obtain ⟨tl, htl⟩ := currentPath_cons (.mk r c ch sel)
    rw [htl]
    simp [toRC, ChatMessage.role, ChatMessage.content]
  | succ k ih =>
    intro m hk
    obtain ⟨r, c, ch, sel⟩ := m
    cases sel with
    | none => rw [currentPath_none] at hk; simp at hk
    | some i =>
      cases hg : ch.get? i with
      | none => rw [currentPath_stop _ _ _ _ hg] at hk; simp at hk
      | some child =>
        rw [currentPath_step _ _ _ _ _ hg] at hk
        have hki : k < (currentPath child).length := by
          simpa using Nat.lt_of_succ_lt_succ hk
        rw [addAt_succ_step _ _ _ _ _ _ _ hg]
        have hi : i < ch.length := (List.get?_eq_some.mp hg).1
        have hset : (ch.set i (addAt child k nm)).get? i = some (addAt child k nm) := by
          simpa using List.get?_set_eq_of_lt (addAt child k nm) hi
        rw [currentPath_step _ _ _ _ _ hset, currentPath_step _ _ _ _ _ hg]
        simp only [List.map_cons, List.take_succ_cons, toRC, ChatMessage.role,
          ChatMessage.content, List.cons_append]
        exact congrArg _ (ih child hki)

/-- Calling `add_message(role, content, after_index=k)` with `k` on the current
path succeeds and the new current path is the old one cut after position
`k` with the new message appended. -/
theorem add_message_branch_path (t : ConversationTree) (role content : String) (k : Int)
    (h0 : 0 ≤ k) (hk : k < (t.get_current_conversation.length : Int)) :
    ∃ t2, t.add_message role content (some k) = .ok t2 ∧
      t2.get_current_conversation.map toRC
        = (t.get_current_conversation.take (k.toNat + 1)).map toRC ++ [⟨role, content⟩] := by
  cases ht : t.root with
  | none =>
    simp only [ConversationTree.get_current_conversation, ht] at hk
    simp at hk
    omega
  | some r =>
    refine ⟨⟨some (addAt r k.toNat (.mk role content [] none))⟩, ?_, ?_⟩
    · simp only [ConversationTree.add_message, ht]
      split
      · rfl
      next hcond => exact absurd ⟨h0, hk⟩ hcond
    · have hk2 : k.toNat < (currentPath r).length := by
        simp only [ConversationTree.get_current_conversation, ht] at hk
        omega
      have := currentPath_addAt (.mk role content [] none) rfl k.toNat r hk2
      simp only [ConversationTree.get_current_conversation, ht]
      simpa [toRC, ChatMessage.role, ChatMessage.content] using this

theorem pyIndex_ok {α : Type} (xs : List α) (i : Int) (a : α)
    (h0 : 0 ≤ i) (h : xs.get? i.toNat = some a) : pyIndex xs i = .ok a := by
  unfold pyIndex
  rw [if_pos h0, h]

theorem pyIndex_oob {α : Type} (xs : List α) (i : Int)
    (h0 : 0 ≤ i) (h : xs.length ≤ i.toNat) : pyIndex xs i = .error .indexError := by
  unfold pyIndex
  rw [if_pos h0, List.get?_eq_none.mpr h]

/-- Calling `add_to_branch` with a level inside `[1, path length)`: the current
tree is replaced by one whose path is the old path cut after position
`lvl - 1`, with the new message now at position `lvl`. -/
theorem add_to_branch_ok (st : ClientState) (t : ConversationTree) (lvl : Int)
    (role content : String) (ht : currentTree st = some t)
    (h1 : 1 ≤ lvl) (h2 : lvl < (t.get_current_conversation.length : Int)) :
    ∃ t2, ChatClient.add_to_branch st lvl role content
        = ⟨setCurrentTree st t2, [.refreshDetail], .ok true⟩ ∧
      t2.get_current_conversation.map toRC
        = (t.get_current_conversation.take lvl.toNat).map toRC ++ [⟨role, content⟩] := by
  obtain ⟨t2, hok, hpath⟩ :=
    add_message_branch_path t role content (lvl - 1) (by omega) (by omega)
  refine ⟨t2, ?_, ?_⟩
  · simp only [ChatClient.add_to_branch, ht]
    split
    · rw [hok]
    next hcond => exact absurd ⟨h1, h2⟩ hcond
  · have heq : (lvl - 1).toNat + 1 = lvl.toNat := by omega
    rw [heq] at hpath
    exact hpath

theorem role_at_level_eq_length (st : ClientState) (t : ConversationTree)
    (ht : currentTree st = some t) :
    ChatClient.role_at_level st (t.get_current_conversation.length : Int)
      = .error .indexError := by
  simp only [ChatClient.role_at_level, ht]
  rw [if_pos ⟨by omega, by omega⟩]
  rw [pyIndex_oob _ _ (by omega) (by omega)]
  rfl

theorem role_at_level_ok (st : ClientState) (t : ConversationTree) (i : Int)
    (m : ChatMessage) (ht : currentTree st = some t) (h0 : 0 ≤ i)
    (hm : t.get_current_conversation.get? i.toNat = some m) :
    ChatClient.role_at_level st i = .ok m.role := by
  have hlt : i.toNat < t.get_current_conversation.length := (List.get?_eq_some.mp hm).1
  simp only [ChatClient.role_at_level, ht]
  rw [if_pos ⟨h0, by omega⟩]
  rw [pyIndex_ok _ _ _ h0 hm]
  rfl

theorem role_at_level_out (st : ClientState) (t : ConversationTree) (i : Int)
    (ht : currentTree st = some t)
    (h : i < 0 ∨ (t.get_current_conversation.length : Int) < i) :
    ChatClient.role_at_level st i = .ok "?" := by
  simp only [ChatClient.role_at_level, ht]
  rw [if_neg (by omega)]

/-!  ## Concrete fixtures used by witnesses and counterexamples -/

theorem currentPath_chain (r c : String) (child : ChatMessage) :
    currentPath (.mk r c [child] (some 0)) = .mk r c [child] (some 0) :: currentPath child :=
  currentPath_step r c [child] 0 child rfl

def dN4 : ChatMessage := .mk "assistant" "a2" [] none

def dN3 : ChatMessage := .mk "user" "q2" [dN4] (some 0)

def dN2 : ChatMessage := .mk "assistant" "a1" [dN3] (some 0)

def dN1 : ChatMessage := .mk "user" "q1" [dN2] (some 0)

def dN0 : ChatMessage := .mk "system" "You are a helpful assistant." [dN1] (some 0)

/-- A conversation tree whose current path has five entries. -/
def demoTree5 : ConversationTree := ⟨some dN0⟩

/-- The tree produced by `create_conversation` before any exchange. -/
def demoTree1 : ConversationTree :=
  ⟨some (.mk "system" "You are a helpful assistant." [] none)⟩

def demoState1 : ClientState := ⟨[("New conversation", demoTree1)], some 0⟩

def demoState5 : ClientState := ⟨[("Demo", demoTree5)], some 0⟩

def demoProvOk : List RCMsg → Except PyErr RCMsg :=
  fun _ => .ok ⟨"assistant", "a reply"⟩

def demoProvErr : List RCMsg → Except PyErr RCMsg :=
  fun _ => .error .apiError

theorem demoTree1_path : demoTree1.get_current_conversation
    = [.mk "system" "You are a helpful assistant." [] none] := by
  simp only [demoTree1, ConversationTree.get_current_conversation]
  rw [currentPath_none]

theorem demoTree5_path : demoTree5.get_current_conversation
    = [dN0, dN1, dN2, dN3, dN4] := by
  simp only [demoTree5, ConversationTree.get_current_conversation, dN0, dN1, dN2, dN3, dN4]
  rw [currentPath_chain, currentPath_chain, currentPath_chain, currentPath_chain,
    currentPath_none]

theorem demoTree5_dicts : demoTree5.get_current_conversation_as_dicts
    = [⟨"system", "You are a helpful assistant."⟩, ⟨"user", "q1"⟩, ⟨"assistant", "a1"⟩,
        ⟨"user", "q2"⟩, ⟨"assistant", "a2"⟩] := by
  unfold ConversationTree.get_current_conversation_as_dicts
  rw [demoTree5_path]
  rfl

/-!  ## Claims -/

/-- C9: for a current conversation of length `L`, calling `role_at_level`
with `msg_idx = L` passes the function's own bounds check
(`msg_idx >= 0 and msg_idx <= len`) and then raises an out-of-range
`IndexError` from the list indexing instead of returning the fallback;
in-range indices return the stored role, and the fallback branch answers
exactly the calls with `msg_idx < 0` or `msg_idx > L`. -/
theorem C9_role_at_level_off_by_one (st : ClientState) (t : ConversationTree)
    (ht : currentTree st = some t) :
    (ChatClient.role_at_level st (t.get_current_conversation.length : Int)
        = .error .indexError) ∧
    (∀ (i : Int) (m : ChatMessage), 0 ≤ i →
        t.get_current_conversation.get? i.toNat = some m →
        ChatClient.role_at_level st i = .ok m.role) ∧
    (∀ i : Int, (i < 0 ∨ (t.get_current_conversation.length : Int) < i) →
        ChatClient.role_at_level st i = .ok "?") :=
  ⟨role_at_level_eq_length st t ht,
    fun i m h0 hm => role_at_level_ok st t i m ht h0 hm,
    fun i h => role_at_level_out st t i ht h⟩

theorem C9_witness :
    currentTree demoState1 = some demoTree1 ∧
    ChatClient.role_at_level demoState1 (demoTree1.get_current_conversation.length : Int)
      = .error .indexError ∧
    ChatClient.role_at_level demoState1 2 = .ok "?" := by
  have ht : currentTree demoState1 = some demoTree1 := rfl
  have h := C9_role_at_level_off_by_one demoState1 demoTree1 ht
  refine ⟨ht, h.1, h.2.2 2 (Or.inr ?_)⟩
  rw [demoTree1_path]
  decide

/-- C10: the title-fetch worker invokes its completion callback only when
an API key is configured and the current conversation has at least 3
messages; in every other case it returns without invoking the callback,
and resolving such a run changes no conversation title. -/
theorem C10_title_callback_gated (key : Bool) (conv : ConversationTree)
    (provider : List RCMsg → Except PyErr RCMsg) :
    (∀ r : RCMsg,
        .invokeCallback r ∈ (_get_title_for_conversation_thread key conv provider).ops →
        key = true ∧ 3 ≤ conv.get_current_conversation_as_dicts.length) ∧
    (¬ (key = true ∧ 3 ≤ conv.get_current_conversation_as_dicts.length) →
        (_get_title_for_conversation_thread key conv provider).callbacks = [] ∧
        ∀ (st : ClientState) (idx : Nat),
          ChatClient.resolve_title_fetch st idx
              (_get_title_for_conversation_thread key conv provider)
            = ⟨st, [], .ok ()⟩) := by
  by_cases hkey : key = true
  · by_cases h3 : 3 ≤ conv.get_current_conversation_as_dicts.length
    · constructor
      · intro r _
        exact ⟨hkey, h3⟩
      · intro hcon
        exact absurd ⟨hkey, h3⟩ hcon
    · have hrun : _get_title_for_conversation_thread key conv provider
          = ⟨[.readCurrentConversation], none⟩ := by
        simp only [_get_title_for_conversation_thread, if_pos hkey]
        rw [if_neg (by omega)]
      constructor
      · intro r hr
        rw [hrun] at hr
        simp at hr
      · intro _
        rw [hrun]
        exact ⟨rfl, fun st idx => rfl⟩
  · have hrun : _get_title_for_conversation_thread key conv provider = ⟨[], none⟩ := by
      simp only [_get_title_for_conversation_thread, if_neg hkey]
    constructor
    · intro r hr
      rw [hrun] at hr
      simp at hr
    · intro _
      rw [hrun]
      exact ⟨rfl, fun st idx => rfl⟩

theorem C10_witness :
    ¬ ((false = true) ∧ 3 ≤ demoTree5.get_current_conversation_as_dicts.length) ∧
    (_get_title_for_conversation_thread false demoTree5 demoProvOk).callbacks = [] ∧
    ChatClient.resolve_title_fetch demoState5 0
        (_get_title_for_conversation_thread false demoTree5 demoProvOk)
      = ⟨demoState5, [], .ok ()⟩ := by
  have hno : ¬ ((false = true) ∧ 3 ≤ demoTree5.get_current_conversation_as_dicts.length) := by
    intro h
    cases h.1
  have h := (C10_title_callback_gated false demoTree5 demoProvOk).2 hno
  exact ⟨hno, h.1, h.2 demoState5 0⟩

/-- With an API key, a completion worker run with truncation bound
`limit ≥ 0` only ever hands the provider the first `limit` entries of the
current conversation. -/
theorem completion_thread_sends_take (conv : ConversationTree) (limit : Int)
    (provider : List RCMsg → Except PyErr RCMsg) (tag : Nat) (hlim : 0 ≤ limit) :
    ∀ msgs : List RCMsg,
      .callProvider msgs ∈ (_get_next_completion_thread true conv (some limit) provider tag).ops →
      msgs = conv.get_current_conversation_as_dicts.take limit.toNat := by
  have hslice : pySliceTo conv.get_current_conversation_as_dicts limit
      = conv.get_current_conversation_as_dicts.take limit.toNat := by
    unfold pySliceTo
    rw [if_pos hlim]
  intro msgs hmem
  simp only [_get_next_completion_thread, if_pos rfl] at hmem
  cases hp : provider (pySliceTo conv.get_current_conversation_as_dicts limit) with
  | ok r =>
    rw [hp] at hmem
    simp at hmem
    rw [hmem, hslice]
  | error e =>
    rw [hp] at hmem
    simp at hmem
    rw [hmem, hslice]

/-- C5: with an API key configured, a completion fetch given a truncation
limit contacts the provider with exactly the first `limit` entries of the
current path; in particular with `limit = 2` on a 5-entry path only the
first two entries are sent. -/
theorem C5_fetch_truncates (conv : ConversationTree) (limit : Int)
    (provider : List RCMsg → Except PyErr RCMsg) (tag : Nat) (hlim : 0 ≤ limit) :
    (∀ msgs : List RCMsg,
        .callProvider msgs ∈ (_get_next_completion_thread true conv (some limit) provider tag).ops →
        msgs = conv.get_current_conversation_as_dicts.take limit.toNat) ∧
    (limit = 2 → conv.get_current_conversation_as_dicts.length = 5 →
      ∀ msgs : List RCMsg,
        .callProvider msgs ∈ (_get_next_completion_thread true conv (some limit) provider tag).ops →
        msgs.length = 2 ∧
        msgs.get? 0 = conv.get_current_conversation_as_dicts.get? 0 ∧
        msgs.get? 1 = conv.get_current_conversation_as_dicts.get? 1) := by
  have hmain := completion_thread_sends_take conv limit provider tag hlim
  refine ⟨hmain, fun h2 h5 msgs hmem => ?_⟩
  have := hmain msgs hmem
  subst h2
  rw [this]
  refine ⟨by simp [h5], ?_, ?_⟩
  · exact List.get?_take (by decide)
  · exact List.get?_take (by decide)

theorem C5_witness :
    (0 : Int) ≤ 2 ∧
    demoTree5.get_current_conversation_as_dicts.length = 5 ∧
    WorkerOp.callProvider [⟨"system", "You are a helpful assistant."⟩, ⟨"user", "q1"⟩]
      ∈ (_get_next_completion_thread true demoTree5 (some 2) demoProvOk 0).ops ∧
    ([⟨"system", "You are a helpful assistant."⟩, ⟨"user", "q1"⟩] : List RCMsg)
      = demoTree5.get_current_conversation_as_dicts.take (2 : Int).toNat := by
  have hlen : demoTree5.get_current_conversation_as_dicts.length = 5 := by
    rw [demoTree5_dicts]
    rfl
  have hmem : WorkerOp.callProvider [⟨"system", "You are a helpful assistant."⟩, ⟨"user", "q1"⟩]
      ∈ (_get_next_completion_thread true demoTree5 (some 2) demoProvOk 0).ops := by
    simp only [_get_next_completion_thread, if_pos rfl, demoTree5_dicts]
    simp [pySliceTo, demoProvOk]
  exact ⟨by decide, hlen, hmem,
    (C5_fetch_truncates demoTree5 2 demoProvOk 0 (by decide)).1 _ hmem⟩

/-- C1: evidence for the code bug — when the provider raises during a
fetch (API key configured, here with the `new_child`-style callback), the
worker thread dies with the exception without invoking its callback, so
the mutator context receives nothing: no error text is appended to the
transcript, the tree and state are left untouched, and
`stop_thinking_state` (the `enableControls` effect) never runs — the UI
stays disabled instead of returning from Fetching to Idle. -/
theorem C1_provider_error_leaves_ui_stuck :
    (_get_next_completion_thread true demoTree5 none demoProvErr 0).raised
        = some .apiError ∧
    (_get_next_completion_thread true demoTree5 none demoProvErr 0).callbacks = [] ∧
    ChatClient.resolve_fetch demoState5 .appendToConversation
        (_get_next_completion_thread true demoTree5 none demoProvErr 0)
      = ⟨demoState5, [], .ok ()⟩ :=
  ⟨rfl, rfl, rfl⟩

/-- C2: counterexample — the completion worker does read Conversation
Tree state during worker execution: its first operation is reading the
current conversation from the tree object it was handed. -/
theorem C2_counterexample :
    .readCurrentConversation
      ∈ (_get_next_completion_thread true demoTree5 none demoProvOk 0).ops := by
  simp [_get_next_completion_thread, demoProvOk]

/-- C2 (amended): the worker receives the `ConversationTree` object
itself, not a pre-copied snapshot; when an API key is configured its very
first operation is reading the current path from that tree (the read then
yields a fresh list of plain role/content values), and without a key it
never touches the tree. -/
theorem C2_worker_reads_tree_itself (conv : ConversationTree) (tb : Option Int)
    (provider : List RCMsg → Except PyErr RCMsg) (tag : Nat) :
    ((_get_next_completion_thread true conv tb provider tag).ops.head?
        = some .readCurrentConversation) ∧
    .readCurrentConversation ∉ (_get_next_completion_thread false conv tb provider tag).ops := by
  constructor
  · simp only [_get_next_completion_thread]
    cases tb with
    | none =>
      split
      · split <;> rfl
      · next h => exact absurd (by trivial) h
    | some n =>
      split
      · split <;> rfl
      · next h => exact absurd (by trivial) h
  · simp [_get_next_completion_thread]

theorem appendAtLeaf_none (r c : String) (ch : List ChatMessage) (nm : ChatMessage) :
    appendAtLeaf (.mk r c ch none) nm = .mk r c (ch ++ [nm]) (some ch.length) := by
  rw [appendAtLeaf]

theorem appendAtLeaf_step (r c : String) (ch : List ChatMessage) (i : Nat)
    (child : ChatMessage) (nm : ChatMessage) (h : ch.get? i = some child) :
    appendAtLeaf (.mk r c ch (some i)) nm
      = .mk r c (ch.set i (appendAtLeaf child nm)) (some i) := by
  rw [appendAtLeaf]
  split
  next heq => rw [h] at heq; cases heq
  next child2 heq => rw [h] at heq; cases heq; rfl

theorem list_set_same {α : Type} : ∀ (l : List α) (i : Nat) (a : α),
    l.get? i = some a → l.set i a = l
  | [], _, _, h => by cases h
  | x :: _, 0, _, h => by cases h; rfl
  | x :: xs, i + 1, a, h => by
    show x :: xs.set i a = x :: xs
    rw [list_set_same xs i a h]

/-- One reduction step for `add_to_conversation`, phrased against the
result of the underlying `add_message` call. -/
theorem add_to_conversation_eq (st : ClientState) (t : ConversationTree) (i : Nat)
    (role content ttl : String) (t2 : ConversationTree)
    (hres : resolveConvIdx st = some i) (ht : currentTree st = some t)
    (hadd : t.add_message role content none = .ok t2)
    (hget : (setCurrentTree st t2).conversations.get? i = some (ttl, t2)) :
    ChatClient.add_to_conversation st role content
      = if ttl = "New conversation" ∧ role = "assistant" then
          ⟨{ setCurrentTree st t2 with
              conversations :=
                setTitleAt (setCurrentTree st t2).conversations i "Retrieving title..." },
            [.refreshDetail, .refreshList, .spawnTitleFetch i], .ok ()⟩
        else ⟨setCurrentTree st t2, [.refreshDetail], .ok ()⟩ := by
  simp only [ChatClient.add_to_conversation, hres, ht, hadd, hget,
    ChatClient.get_title_for_conversation]
  split <;> rfl

def c8TreeU : ConversationTree :=
  ⟨some (.mk "system" "You are a helpful assistant." [.mk "user" "hi" [] none] (some 0))⟩

def c8StU : ClientState := ⟨[("New conversation", c8TreeU)], some 0⟩

def c8TreeA : ConversationTree :=
  ⟨some (.mk "system" "You are a helpful assistant."
    [.mk "user" "hi" [.mk "assistant" "yo" [] none] (some 0)] (some 0))⟩

def c8StA : ClientState := ⟨[("Retrieving title...", c8TreeA)], some 0⟩

theorem c8_addU : demoTree1.add_message "user" "hi" none = .ok c8TreeU := by
  simp only [ConversationTree.add_message, demoTree1]
  rw [appendAtLeaf_none]
  rfl

theorem c8_addA : c8TreeU.add_message "assistant" "yo" none = .ok c8TreeA := by
  simp only [ConversationTree.add_message, c8TreeU]
  rw [appendAtLeaf_step "system" "You are a helpful assistant."
    [ChatMessage.mk "user" "hi" [] none] 0 (ChatMessage.mk "user" "hi" [] none)
    (ChatMessage.mk "assistant" "yo" [] none) rfl]
  rw [appendAtLeaf_none]
  rfl

theorem c8_stepU : ChatClient.add_to_conversation demoState1 "user" "hi"
    = ⟨c8StU, [.refreshDetail], .ok ()⟩ := by
  rw [add_to_conversation_eq demoState1 demoTree1 0 "user" "hi" "New conversation" c8TreeU
    rfl rfl c8_addU rfl]
  rw [if_neg (by decide)]
  rfl

theorem c8_stepA : ChatClient.add_to_conversation c8StU "assistant" "yo"
    = ⟨c8StA, [.refreshDetail, .refreshList, .spawnTitleFetch 0], .ok ()⟩ := by
  rw [add_to_conversation_eq c8StU c8TreeU 0 "assistant" "yo" "New conversation" c8TreeA
    rfl rfl c8_addA rfl]
  rw [if_pos (by exact ⟨rfl, rfl⟩)]
  rfl

/-- C8: counterexample — after a fresh conversation receives its first
user and assistant turns, and before any model-supplied title has been
delivered (no title callback has been resolved), the pair's title is
"Retrieving title...", which is neither the creation placeholder
"New conversation" nor a model-supplied title. -/
theorem C8_counterexample :
    (ChatClient.create_conversation ⟨[], none⟩).state = demoState1 ∧
    (ChatClient.add_to_conversation demoState1 "user" "hi").state = c8StU ∧
    (ChatClient.add_to_conversation c8StU "assistant" "yo").state.conversations.map Prod.fst
      = ["Retrieving title..."] ∧
    "Retrieving title..." ≠ "New conversation" := by
  refine ⟨rfl, ?_, ?_, by decide⟩
  · rw [c8_stepU]
  · rw [c8_stepA]
    rfl

/-- C8 (amended): a pair is created titled "New conversation"; the title
stays unchanged while non-assistant turns are appended; when the first
assistant turn arrives on a pair still titled "New conversation" the
title becomes "Retrieving title..." and a title fetch is spawned, which
contacts the provider only when the current conversation has at least 3
messages (one full user+assistant exchange after the system turn). -/
theorem C8_title_lifecycle (st : ClientState) (t : ConversationTree) (i : Nat)
    (role content ttl : String) (t2 : ConversationTree)
    (hres : resolveConvIdx st = some i) (ht : currentTree st = some t)
    (hadd : t.add_message role content none = .ok t2)
    (hget : (setCurrentTree st t2).conversations.get? i = some (ttl, t2)) :
    (role ≠ "assistant" →
      (ChatClient.add_to_conversation st role content).state.conversations.map Prod.fst
        = (setCurrentTree st t2).conversations.map Prod.fst) ∧
    (ttl = "New conversation" → role = "assistant" →
      (ChatClient.add_to_conversation st role content).state.conversations.get? i
          = some ("Retrieving title...", t2) ∧
      .spawnTitleFetch i ∈ (ChatClient.add_to_conversation st role content).effects) ∧
    (∀ (key : Bool) (conv2 : ConversationTree)
        (provider : List RCMsg → Except PyErr RCMsg) (msgs : List RCMsg),
        .callProvider msgs ∈ (_get_title_for_conversation_thread key conv2 provider).ops →
        3 ≤ conv2.get_current_conversation_as_dicts.length) := by
  rw [add_to_conversation_eq st t i role content ttl t2 hres ht hadd hget]
  have hlt : i < (setCurrentTree st t2).conversations.length :=
    (List.get?_eq_some.mp hget).1
  refine ⟨?_, ?_, ?_⟩
  · intro hrole
    rw [if_neg (fun hc => hrole hc.2)]
  · intro httl hrole
    rw [if_pos ⟨httl, hrole⟩]
    constructor
    · show (setTitleAt (setCurrentTree st t2).conversations i "Retrieving title...").get? i
          = some ("Retrieving title...", t2)
      unfold setTitleAt
      rw [hget]
      simpa using List.get?_set_eq_of_lt ("Retrieving title...", t2) hlt
    · simp
  · intro key conv2 provider msgs hmem
    by_cases hkey : key = true
    · by_cases h3 : 3 ≤ conv2.get_current_conversation_as_dicts.length
      · exact h3
      · have hrun : _get_title_for_conversation_thread key conv2 provider
            = ⟨[.readCurrentConversation], none⟩ := by
          simp only [_get_title_for_conversation_thread, if_pos hkey]
          rw [if_neg (by omega)]
        rw [hrun] at hmem
        simp at hmem
    · have hrun : _get_title_for_conversation_thread key conv2 provider = ⟨[], none⟩ := by
        simp only [_get_title_for_conversation_thread, if_neg hkey]
      rw [hrun] at hmem
      simp at hmem

theorem C8_witness :
    resolveConvIdx c8StU = some 0 ∧
    currentTree c8StU = some c8TreeU ∧
    c8TreeU.add_message "assistant" "yo" none = .ok c8TreeA ∧
    (setCurrentTree c8StU c8TreeA).conversations.get? 0 = some ("New conversation", c8TreeA) ∧
    (ChatClient.add_to_conversation c8StU "assistant" "yo").state.conversations.get? 0
        = some ("Retrieving title...", c8TreeA) ∧
    .spawnTitleFetch 0 ∈ (ChatClient.add_to_conversation c8StU "assistant" "yo").effects := by
  have h := (C8_title_lifecycle c8StU c8TreeU 0 "assistant" "yo" "New conversation" c8TreeA
    rfl rfl c8_addA rfl).2.1 rfl rfl
  exact ⟨rfl, rfl, c8_addA, rfl, h.1, h.2⟩

/-- C4: counterexample — the state file can hold perfectly valid JSON of
an unexpected shape; `load` then raises an uncaught exception (here a
`KeyError` for the decoded value `\x7b\x7d`, which lacks the
`conversations` key) instead of "never crashing". -/
theorem C4_counterexample :
    ChatClient.load ⟨[], none⟩ (.parsed (.obj [])) = ⟨⟨[], none⟩, [], .error .keyError⟩ :=
  rfl

/-- C4 (amended): a missing state file is treated as starting empty (not
an error) and content that fails JSON decoding is logged to stderr and
treated as starting empty, but syntactically valid JSON of an unexpected
shape raises an uncaught exception out of `load` (e.g. an object without
the `conversations` key raises `KeyError`), so loading is not crash-free
for every possible file content. -/
theorem C4_load_missing_and_corrupt (st : ClientState) :
    ChatClient.load st .missing = ⟨st, [], .ok ()⟩ ∧
    ChatClient.load st .unparsable = ⟨st, [.logStderr "JSONDecodeError"], .ok ()⟩ ∧
    ChatClient.load st (.parsed (.obj [])) = ⟨st, [], .error .keyError⟩ :=
  ⟨rfl, rfl, rfl⟩

/-- C3: counterexample — "/sw x y" has the right arity but non-integer
arguments; `int()` raises an uncaught `ValueError`, so no usage message
is appended (the effect list is empty) instead of the claimed usage
message.  (The tree is indeed not mutated.) -/
theorem C3_counterexample :
    ChatClient.parse_command demoState5 "/sw x y" = ⟨demoState5, [], .error .valueError⟩ :=
  rfl

/-- C3 (amended): for an input starting with "/sw": wrong arity appends
the usage message and performs no mutation; three whitespace-separated
parts whose arguments both parse as integers invoke
`switch_branch(A, B)`, which calls `change_branch(A-1, B-1)`; but a
non-integer argument raises an uncaught `ValueError` — no usage message,
no mutation. -/
theorem C3_sw_command (st : ClientState) (input : String)
    (hsw : pyStartsWith input "/sw" = true) :
    ((pySplit input).length ≠ 3 →
      ChatClient.parse_command st input = ⟨st, ChatClient.unrecognized_command, .ok ()⟩) ∧
    (∀ p0 aStr bStr : String, pySplit input = [p0, aStr, bStr] →
      (∀ a b : Int, pyInt aStr = .ok a → pyInt bStr = .ok b →
        ChatClient.parse_command st input = (ChatClient.switch_branch st a b).toUnit) ∧
      (pyInt aStr = .error .valueError →
        ChatClient.parse_command st input = ⟨st, [], .error .valueError⟩) ∧
      (∀ a : Int, pyInt aStr = .ok a → pyInt bStr = .error .valueError →
        ChatClient.parse_command st input = ⟨st, [], .error .valueError⟩)) ∧
    (∀ (a b : Int) (t : ConversationTree), currentTree st = some t →
      ChatClient.switch_branch st a b
        = match t.change_branch (a - 1) (b - 1) with
          | .ok t2 => ⟨setCurrentTree st t2, [.refreshDetail], .ok true⟩
          | .error e => ⟨st, [.appendTranscript ("\n\n" ++ pyErrStr e)], .ok false⟩) := by
  refine ⟨?_, ?_, ?_⟩
  · intro hlen
    simp only [ChatClient.parse_command, hsw, if_true]
    rw [if_neg hlen]
  · intro p0 aStr bStr hparts
    have hlen3 : (pySplit input).length = 3 := by rw [hparts]; rfl
    have hget1 : (pySplit input).getD 1 "" = aStr := by rw [hparts]; rfl
    have hget2 : (pySplit input).getD 2 "" = bStr := by rw [hparts]; rfl
    refine ⟨?_, ?_, ?_⟩
    · intro a b ha hb
      simp only [ChatClient.parse_command, hsw, hlen3, hget1, hget2, ha, hb, if_true]
    · intro ha
      simp only [ChatClient.parse_command, hsw, hlen3, hget1, ha, if_true]
    · intro a ha hb
      simp only [ChatClient.parse_command, hsw, hlen3, hget1, hget2, ha, hb, if_true]
  · intro a b t ht
    simp only [ChatClient.switch_branch, ht]

theorem C3_witness :
    pyStartsWith "/sw 2 1" "/sw" = true ∧
    pySplit "/sw 2 1" = ["/sw", "2", "1"] ∧
    pyInt "2" = .ok 2 ∧ pyInt "1" = .ok 1 ∧
    ChatClient.parse_command demoState5 "/sw 2 1"
      = (ChatClient.switch_branch demoState5 2 1).toUnit := by
  have h := (C3_sw_command demoState5 "/sw 2 1" rfl).2.1 "/sw" "2" "1" rfl
  exact ⟨rfl, rfl, rfl, rfl, h.1 2 1 rfl rfl⟩

theorem new_branch_in_range_assistant (st : ClientState) (t : ConversationTree) (N : Int)
    (ht : currentTree st = some t)
    (hlo : 1 ≤ N) (hhi : N < (t.get_current_conversation.length : Int))
    (hrole : ChatClient.role_at_level st N = .ok "assistant") (c : Option String) :
    ChatClient.new_branch st N c
      = ⟨st, ChatClient.start_thinking_state
          ++ [.spawnCompletionFetch (some N) (.branchAt N)], .ok ()⟩ := by
  simp only [ChatClient.new_branch, ht]
  rw [if_pos ⟨hlo, hhi⟩]
  simp only [hrole, if_true]

theorem new_branch_in_range_user (st : ClientState) (t : ConversationTree) (N : Int)
    (role2 text : String) (ht : currentTree st = some t)
    (hlo : 1 ≤ N) (hhi : N < (t.get_current_conversation.length : Int))
    (hrole : ChatClient.role_at_level st N = .ok role2) (hne : role2 ≠ "assistant") :
    ∃ t2,
      ChatClient.new_branch st N (some text)
        = ⟨setCurrentTree st t2,
            [.refreshDetail] ++ ChatClient.start_thinking_state
              ++ [.spawnCompletionFetch none .appendToConversation], .ok ()⟩ ∧
      t2.get_current_conversation.map toRC
        = (t.get_current_conversation.map toRC).take N.toNat ++ [⟨"user", text⟩] := by
  obtain ⟨t2, hatb, hpath⟩ := add_to_branch_ok st t N "user" text ht hlo hhi
  refine ⟨t2, ?_, ?_⟩
  · simp only [ChatClient.new_branch, ht]
    rw [if_pos ⟨hlo, hhi⟩]
    simp only [hrole]
    rw [if_neg hne]
    simp only [hatb]
  · rw [List.map_take] at hpath
    exact hpath

theorem resolve_branchAt (st : ClientState) (t : ConversationTree) (N : Int)
    (resp : RCMsg) (ht : currentTree st = some t)
    (hlo : 1 ≤ N) (hhi : N < (t.get_current_conversation.length : Int)) :
    ∃ t2,
      ChatClient.resolve_callback st (.branchAt N) resp
        = ⟨setCurrentTree st t2, [.refreshDetail] ++ ChatClient.stop_thinking_state, .ok ()⟩ ∧
      t2.get_current_conversation.map toRC
        = (t.get_current_conversation.map toRC).take N.toNat
            ++ [⟨resp.role, resp.content⟩] := by
  obtain ⟨t2, hatb, hpath⟩ := add_to_branch_ok st t N resp.role resp.content ht hlo hhi
  refine ⟨t2, ?_, ?_⟩
  · simp only [ChatClient.resolve_callback, hatb]
    rfl
  · rw [List.map_take] at hpath
    exact hpath

/-- C6: an in-range `/nb N text` command dispatches to
`new_branch(N, text)`.  When the node at transcript position `N` of the
current path is an assistant turn, the provided text is ignored (the same
fetch is requested whatever the text), the fetch is issued with the path
truncated to its first `N` entries, and its reply is delivered as a new
sibling branch at position `N`; otherwise the provided text becomes the
content of the new user branch at position `N`. -/
theorem C6_nb_command (st : ClientState) (input p0 nStr text : String) (N : Int)
    (t : ConversationTree)
    (hsw : pyStartsWith input "/sw" = false)
    (hnb : pyStartsWith input "/nb" = true)
    (hparts : pySplitMaxsplit input 2 = [p0, nStr, text])
    (hN : pyInt nStr = .ok N)
    (ht : currentTree st = some t)
    (hlo : 1 ≤ N) (hhi : N < (t.get_current_conversation.length : Int)) :
    ChatClient.parse_command st input = ChatClient.new_branch st N (some text) ∧
    (ChatClient.role_at_level st N = .ok "assistant" →
      (∀ c : Option String, ChatClient.new_branch st N c
        = ⟨st, ChatClient.start_thinking_state
            ++ [.spawnCompletionFetch (some N) (.branchAt N)], .ok ()⟩) ∧
      (∀ (provider : List RCMsg → Except PyErr RCMsg) (tag : Nat) (msgs : List RCMsg),
        .callProvider msgs ∈ (_get_next_completion_thread true t (some N) provider tag).ops →
        msgs = t.get_current_conversation_as_dicts.take N.toNat) ∧
      (∀ resp : RCMsg, ∃ t2,
        ChatClient.resolve_callback st (.branchAt N) resp
          = ⟨setCurrentTree st t2,
              [.refreshDetail] ++ ChatClient.stop_thinking_state, .ok ()⟩ ∧
        t2.get_current_conversation.map toRC
          = (t.get_current_conversation.map toRC).take N.toNat
              ++ [⟨resp.role, resp.content⟩])) ∧
    (∀ role2 : String, ChatClient.role_at_level st N = .ok role2 → role2 ≠ "assistant" →
      ∃ t2,
        ChatClient.new_branch st N (some text)
          = ⟨setCurrentTree st t2,
              [.refreshDetail] ++ ChatClient.start_thinking_state
                ++ [.spawnCompletionFetch none .appendToConversation], .ok ()⟩ ∧
        t2.get_current_conversation.map toRC
          = (t.get_current_conversation.map toRC).take N.toNat ++ [⟨"user", text⟩]) := by
  refine ⟨?_, ?_, ?_⟩
  · have hlen3 : (pySplitMaxsplit input 2).length = 3 := by rw [hparts]; rfl
    have hget1 : (pySplitMaxsplit input 2).getD 1 "" = nStr := by rw [hparts]; rfl
    have hget2 : (pySplitMaxsplit input 2).getD 2 "" = text := by rw [hparts]; rfl
    simp only [ChatClient.parse_command, hsw, hnb, hlen3, hget1, hget2, hN, if_true,
      Bool.false_eq_true, if_false]
  · intro hrole
    refine ⟨fun c => new_branch_in_range_assistant st t N ht hlo hhi hrole c, ?_, ?_⟩
    · intro provider tag msgs hmem
      exact completion_thread_sends_take t N provider tag (by omega) msgs hmem
    · intro resp
      exact resolve_branchAt st t N resp ht hlo hhi
  · intro role2 hrole hne
    exact new_branch_in_range_user st t N role2 text ht hlo hhi hrole hne

theorem C6_witness :
    pyStartsWith "/nb 2 hello" "/sw" = false ∧
    pyStartsWith "/nb 2 hello" "/nb" = true ∧
    pySplitMaxsplit "/nb 2 hello" 2 = ["/nb", "2", "hello"] ∧
    pyInt "2" = .ok 2 ∧
    currentTree demoState5 = some demoTree5 ∧
    (1 : Int) ≤ 2 ∧ (2 : Int) < (demoTree5.get_current_conversation.length : Int) ∧
    ChatClient.role_at_level demoState5 2 = .ok "assistant" ∧
    ChatClient.parse_command demoState5 "/nb 2 hello"
      = ChatClient.new_branch demoState5 2 (some "hello") ∧
    ChatClient.new_branch demoState5 2 (some "hello")
      = ⟨demoState5, ChatClient.start_thinking_state
          ++ [.spawnCompletionFetch (some 2) (.branchAt 2)], .ok ()⟩ := by
  have hL : demoTree5.get_current_conversation.length = 5 := by
    rw [demoTree5_path]
    rfl
  have hhi : (2 : Int) < (demoTree5.get_current_conversation.length : Int) := by
    rw [hL]
    decide
  have hget : demoTree5.get_current_conversation.get? (2 : Int).toNat = some dN2 := by
    rw [demoTree5_path]
    rfl
  have hrole : ChatClient.role_at_level demoState5 2 = .ok "assistant" :=
    role_at_level_ok demoState5 demoTree5 2 dN2 rfl (by decide) hget
  have h := C6_nb_command demoState5 "/nb 2 hello" "/nb" "2" "hello" 2 demoTree5
    rfl rfl rfl rfl rfl (by decide) hhi
  exact ⟨rfl, rfl, rfl, rfl, rfl, by decide, hhi, hrole, h.1, (h.2.1 hrole).1 (some "hello")⟩

/-- C7: counterexample — "/nb 1" on a fresh conversation (current path of
length 1): `N = 1` equals the current path length, which is outside
`[1, current_path_length)`, yet no usage or range message is appended:
`role_at_level` raises an uncaught `IndexError` (the tree is still not
mutated, but the claimed message never appears). -/
theorem C7_counterexample :
    ChatClient.parse_command demoState1 "/nb 1" = ⟨demoState1, [], .error .indexError⟩ := by
  have hlen : (demoTree1.get_current_conversation.length : Int) = 1 := by
    rw [demoTree1_path]
    rfl
  have hr : ChatClient.role_at_level demoState1 1 = .error .indexError := by
    have h := role_at_level_eq_length demoState1 demoTree1 rfl
    rw [hlen] at h
    exact h
  have hsw : pyStartsWith "/nb 1" "/sw" = false := rfl
  have hnb : pyStartsWith "/nb 1" "/nb" = true := rfl
  have hne3 : ¬ ((pySplitMaxsplit "/nb 1" 2).length = 3) := by decide
  have heq2 : (pySplitMaxsplit "/nb 1" 2).length = 2 := rfl
  have hget1 : (pySplitMaxsplit "/nb 1" 2).getD 1 "" = "1" := rfl
  have hint : pyInt "1" = .ok 1 := rfl
  simp only [ChatClient.parse_command, hsw, Bool.false_eq_true, if_false, hnb, if_true]
  rw [if_neg hne3, if_pos heq2]
  simp only [hget1, hint, hr]

/-- C7 (amended): for an in-scope `/nb` command: with text given, an `N`
outside `[1, current_path_length)` appends the new-branch range message
and does not mutate the tree; with text missing, an `N` whose position
holds a non-assistant turn (or an `N` with `N < 0` or
`N > current_path_length`, where the role lookup answers "?") appends the
prompt-required message and does not mutate the tree — except that
`N = current_path_length` with text missing raises an uncaught
`IndexError` out of `role_at_level`: no message is appended (the tree is
still not mutated). -/
theorem C7_nb_error_handling (st : ClientState) (input : String) (t : ConversationTree)
    (hsw : pyStartsWith input "/sw" = false)
    (hnb : pyStartsWith input "/nb" = true)
    (ht : currentTree st = some t) :
    (∀ p0 nStr text : String, pySplitMaxsplit input 2 = [p0, nStr, text] →
      ∀ N : Int, pyInt nStr = .ok N →
      ¬ (1 ≤ N ∧ N < (t.get_current_conversation.length : Int)) →
      ChatClient.parse_command st input
        = ⟨st, [.appendTranscript
            s!"\n\nrequested sibling level for new-branch outside range (1 - {t.get_current_conversation.length})"],
          .ok ()⟩) ∧
    (∀ p0 nStr : String, pySplitMaxsplit input 2 = [p0, nStr] →
      ∀ N : Int, pyInt nStr = .ok N →
      ((N = (t.get_current_conversation.length : Int) →
          ChatClient.parse_command st input = ⟨st, [], .error .indexError⟩) ∧
       ((N < 0 ∨ (t.get_current_conversation.length : Int) < N) →
          ChatClient.parse_command st input
            = ⟨st, [.appendTranscript
                s!"\n\nnew-branch for level {N} also requires a prompt (e.g. /nb {N} Hello, world!)"],
              .ok ()⟩) ∧
       (∀ m : ChatMessage, 0 ≤ N → t.get_current_conversation.get? N.toNat = some m →
          m.role ≠ "assistant" →
          ChatClient.parse_command st input
            = ⟨st, [.appendTranscript
                s!"\n\nnew-branch for level {N} also requires a prompt (e.g. /nb {N} Hello, world!)"],
              .ok ()⟩))) := by
  constructor
  · intro p0 nStr text hparts N hN hnr
    have hlen3 : (pySplitMaxsplit input 2).length = 3 := by rw [hparts]; rfl
    have hget1 : (pySplitMaxsplit input 2).getD 1 "" = nStr := by rw [hparts]; rfl
    have hget2 : (pySplitMaxsplit input 2).getD 2 "" = text := by rw [hparts]; rfl
    simp only [ChatClient.parse_command, hsw, Bool.false_eq_true, if_false, hnb, if_true,
      hlen3, hget1, hget2, hN]
    simp only [ChatClient.new_branch, ht]
    rw [if_neg hnr]
  · intro p0 nStr hparts N hN
    have hne3 : ¬ ((pySplitMaxsplit input 2).length = 3) := by rw [hparts]; simp
    have heq2 : (pySplitMaxsplit input 2).length = 2 := by rw [hparts]; rfl
    have hget1 : (pySplitMaxsplit input 2).getD 1 "" = nStr := by rw [hparts]; rfl
    refine ⟨?_, ?_, ?_⟩
    · intro hNL
      have hr : ChatClient.role_at_level st N = .error .indexError := by
        rw [hNL]
        exact role_at_level_eq_length st t ht
      simp only [ChatClient.parse_command, hsw, Bool.false_eq_true, if_false, hnb, if_true]
      rw [if_neg hne3, if_pos heq2]
      simp only [hget1, hN, hr]
    · intro hout
      have hr : ChatClient.role_at_level st N = .ok "?" :=
        role_at_level_out st t N ht hout
      simp only [ChatClient.parse_command, hsw, Bool.false_eq_true, if_false, hnb, if_true]
      rw [if_neg hne3, if_pos heq2]
      simp only [hget1, hN, hr]
      rw [if_neg (by decide : ¬ (("?" : String) = "assistant"))]
    · intro m h0 hm hne
      have hr : ChatClient.role_at_level st N = .ok m.role :=
        role_at_level_ok st t N m ht h0 hm
      simp only [ChatClient.parse_command, hsw, Bool.false_eq_true, if_false, hnb, if_true]
      rw [if_neg hne3, if_pos heq2]
      simp only [hget1, hN, hr]
      rw [if_neg hne]

theorem C7_witness :
    pyStartsWith "/nb 1" "/sw" = false ∧
    pyStartsWith "/nb 1" "/nb" = true ∧
    currentTree demoState5 = some demoTree5 ∧
    pySplitMaxsplit "/nb 1" 2 = ["/nb", "1"] ∧
    pyInt "1" = .ok 1 ∧
    (0 : Int) ≤ 1 ∧
    demoTree5.get_current_conversation.get? (1 : Int).toNat = some dN1 ∧
    dN1.role ≠ "assistant" ∧
    ChatClient.parse_command demoState5 "/nb 1"
      = ⟨demoState5,
          [.appendTranscript
            "\n\nnew-branch for level 1 also requires a prompt (e.g. /nb 1 Hello, world!)"],
          .ok ()⟩ := by
  have hget : demoTree5.get_current_conversation.get? (1 : Int).toNat = some dN1 := by
    rw [demoTree5_path]
    rfl
  have hne : dN1.role ≠ "assistant" := by decide
  have h := ((C7_nb_error_handling demoState5 "/nb 1" demoTree5 rfl rfl rfl).2
    "/nb" "1" rfl 1 rfl).2.2 dN1 (by decide) hget hne
  exact ⟨rfl, rfl, rfl, rfl, rfl, by decide, hget, hne, h⟩

theorem C2_witness :
    (_get_next_completion_thread true demoTree5 (some 3) demoProvOk 1).ops.head?
        = some .readCurrentConversation ∧
    .readCurrentConversation
      ∉ (_get_next_completion_thread false demoTree5 (some 3) demoProvOk 1).ops :=
  C2_worker_reads_tree_itself demoTree5 (some 3) demoProvOk 1

theorem C4_witness :
    ChatClient.load demoState1 .missing = ⟨demoState1, [], .ok ()⟩ ∧
    ChatClient.load demoState1 .unparsable
        = ⟨demoState1, [.logStderr "JSONDecodeError"], .ok ()⟩ ∧
    ChatClient.load demoState1 (.parsed (.obj [])) = ⟨demoState1, [], .error .keyError⟩ :=
  C4_load_missing_and_corrupt demoState1
